import Mathlib

/-!
Verification of the LogsPOC distributor core.

The definitions below are a shallow embedding of the Go distributor
(`distributor.go` of the `main` package: `handleLogPacket`,
`distributeLogMessagesParallel`, `distributeLogMessage`,
`enqueueFailedMessage`, `selectAnalyzer`, `selectAlternativeAnalyzer`,
`processQueueWorker`, `tryDeliverQueued`, `loadConfig`).

Modelling conventions:
- Go `float64` weights and the random draw are modelled as rationals;
  `rand.Float64()` is an oracle parameter `r01` assumed in `[0, 1)` where
  that matters.
- Time stamps are abstract naturals; `time.Now()` is a `now` parameter.
- Network behaviour is an oracle: each HTTP attempt's outcome is either a
  transport error or a status code.
- `json.Marshal` success and `http.NewRequestWithContext` success are
  Boolean oracles (the latter is determined by the configured endpoint, so
  a single flag per dispatch).
- Go maps `map[string]bool` used as string sets become `List String` with
  membership-based insertion.
-/

/-- `models.LogMessage`. -/
structure LogMessage where
  id : String
  timestamp : Nat
  level : String
  source : String
  message : String
  metadata : List (String × String)
deriving DecidableEq

/-- `models.LogPacket`. -/
structure LogPacket where
  packetId : String
  agentId : String
  timestamp : Nat
  messages : List LogMessage
deriving DecidableEq

/-- `models.AnalyzerConfig`. -/
structure AnalyzerConfig where
  ID : String
  Weight : ℚ
  Enabled : Bool
  Endpoint : String
  Timeout : Nat
  RetryCount : Nat
deriving DecidableEq

/-- The zero value `models.AnalyzerConfig{}` returned by
`selectAlternativeAnalyzer` when every sink has been tried. -/
def sentinelAnalyzer : AnalyzerConfig :=
  { ID := "", Weight := 0, Enabled := false, Endpoint := "", Timeout := 0, RetryCount := 0 }

/-- `models.DistributorConfig`. -/
structure DistributorConfig where
  Analyzers : List AnalyzerConfig
  Port : Int
  TotalWeight : ℚ
  NormalizeWeights : Bool
deriving DecidableEq

/-- Sum of analyzer weights, as accumulated by the Go loops. -/
def weightSum (analyzers : List AnalyzerConfig) : ℚ :=
  (analyzers.map AnalyzerConfig.Weight).sum

/-- The weighted-walk loop shared by `selectAnalyzer` and
`selectAlternativeAnalyzer`: accumulate weights and return the first
element whose running sum is at least the draw (`if r <= w { return a }`).
`none` means the loop fell through to the fallback line. -/
def walkWeighted (rv : ℚ) : ℚ → List AnalyzerConfig → Option AnalyzerConfig
  | _, [] => none
  | acc, a :: rest =>
    let w := acc + a.Weight
    if rv ≤ w then some a else walkWeighted rv w rest

/-- `selectAnalyzer` (initial-dispatch selection over all configured
analyzers). `r01` is the `rand.Float64()` draw. The Go fallback line
`return analyzers[0]` panics when the slice is empty; `none` models that
panic (on a non-empty slice the fallback yields the head). -/
def selectAnalyzer (analyzers : List AnalyzerConfig) (r01 : ℚ) : Option AnalyzerConfig :=
  let totalWeight := weightSum analyzers
  let randomValue := r01 * totalWeight
  match walkWeighted randomValue 0 analyzers with
  | some a => some a
  | none => analyzers.head?

/-- `selectAlternativeAnalyzer`: filter out tried analyzers, return the
zero-value sentinel when no candidate remains, otherwise weighted walk
with fallback `candidates[0]`. -/
def selectAlternativeAnalyzer (analyzers : List AnalyzerConfig) (tried : List String)
    (r01 : ℚ) : AnalyzerConfig :=
  match analyzers.filter (fun a => !(tried.contains a.ID)) with
  | [] => sentinelAnalyzer
  | c :: cs =>
    match walkWeighted (r01 * weightSum (c :: cs)) 0 (c :: cs) with
    | some a => a
    | none => c

/-- The validation part of `loadConfig` (file reading and JSON parsing are
outside the model; the parsed configuration is the input). Checks the
port, requires at least one analyzer, recomputes `TotalWeight` (the Go
code stores the sum into the config and then tests that field; here the
sum is tested directly and stored in the returned config, which is the
same value), and requires it to be positive; `none` models returning an
error. -/
def loadConfig (config : DistributorConfig) : Option DistributorConfig :=
  if config.Port ≤ 0 then none
  else if config.Analyzers.length = 0 then none
  else if weightSum config.Analyzers ≤ 0 then none
  else some { config with TotalWeight := weightSum config.Analyzers }

lemma weightSum_nil : weightSum [] = 0 := rfl

lemma weightSum_cons (a : AnalyzerConfig) (l : List AnalyzerConfig) :
    weightSum (a :: l) = a.Weight + weightSum l := by
  simp [weightSum]

/-- Anything the weighted walk returns is one of the candidates. -/
lemma walkWeighted_mem {rv : ℚ} :
    ∀ {l : List AnalyzerConfig} {acc : ℚ} {a : AnalyzerConfig},
      walkWeighted rv acc l = some a → a ∈ l := by
  intro l
  induction l with
  | nil => intro acc a h; simp [walkWeighted] at h
  | cons b rest ih =>
    intro acc a h
    simp only [walkWeighted] at h
    split at h
    · cases h; exact List.mem_cons_self _ _
    · exact List.mem_cons_of_mem _ (ih h)

/-- If the draw does not exceed the total remaining weight, the walk
terminates inside the loop (the fallback line is unreachable). -/
lemma walkWeighted_total :
    ∀ (l : List AnalyzerConfig) (acc rv : ℚ), l ≠ [] → rv ≤ acc + weightSum l →
      ∃ a, a ∈ l ∧ walkWeighted rv acc l = some a := by
  intro l
  induction l with
  | nil => intro acc rv h; exact absurd rfl h
  | cons b rest ih =>
    intro acc rv _ hle
    by_cases hb : rv ≤ acc + b.Weight
    · exact ⟨b, List.mem_cons_self _ _, by simp [walkWeighted, hb]⟩
    · have hrest : rest ≠ [] := by
        intro hnil
        apply hb
        simpa [hnil, weightSum_cons, weightSum_nil] using hle
      have hle2 : rv ≤ (acc + b.Weight) + weightSum rest := by
        rw [weightSum_cons] at hle
        linarith
      obtain ⟨a, hmem, heq⟩ := ih (acc + b.Weight) rv hrest hle2
      exact ⟨a, List.mem_cons_of_mem _ hmem, by simp [walkWeighted, hb, heq]⟩

/-- `QueuedMessage` (the distributor's retry-queue entry). -/
structure QueuedMessage where
  logMessage : LogMessage
  TriedAnalyzers : List String
  Attempts : Nat
  LastAttempt : Nat
  QueuedAt : Nat
deriving DecidableEq

/-- Outcome of one HTTP attempt inside the in-line retry loop of
`distributeLogMessage`: either `client.Do` returned an error, or a
response with the given status code arrived. -/
inductive Outcome
  | netErr
  | status (code : Nat)
deriving DecidableEq

/-- Observable actions of the in-line retry loop: one `client.Do` call
(`post n` with the zero-based attempt index) or one backoff
`time.Sleep` of the given number of seconds. -/
inductive Ev
  | post (attempt : Nat)
  | sleep (secs : Nat)
deriving DecidableEq

def Ev.isPost : Ev → Bool
  | .post _ => true
  | .sleep _ => false

/-- The classification `resp.StatusCode >= 400 && resp.StatusCode < 500
&& resp.StatusCode != 429` from `distributeLogMessage`. -/
def isTerminalClientError (c : Nat) : Bool :=
  decide (400 ≤ c ∧ c < 500 ∧ c ≠ 429)

/-- A retryable attempt outcome: transport error, or a status that is
neither `200` nor a terminal client error. -/
def isRetryable : Outcome → Bool
  | .netErr => true
  | .status c => decide (c ≠ 200) && !(isTerminalClientError c)

/-- Result of the in-line retry loop of `distributeLogMessage`. -/
inductive LoopResult
  | delivered (attempt : Nat)
  | terminal (attempt : Nat) (code : Nat)
  | exhausted
  | requestError
deriving DecidableEq

/-- The `for attempt := 0; attempt <= retryCount; attempt++` loop of
`distributeLogMessage`, with the outcome of each attempt supplied by the
oracle `outcomes`. Called with `remaining = retryCount + 1`; `remaining =
0` inside a call means the previous attempt was the last one, so a
retryable failure there falls out of the loop (`exhausted`). `reqOk`
models `http.NewRequestWithContext` succeeding (a property of the
configured endpoint, hence one flag); when it is false the function
returns at the first attempt without any POST. The trace records every
`client.Do` and every backoff sleep of `2^attempt` seconds. -/
def dispatchAttempts (reqOk : Bool) (outcomes : Nat → Outcome) :
    Nat → Nat → LoopResult × List Ev
  | _, 0 => (.exhausted, [])
  | attempt, remaining + 1 =>
    if reqOk = false then (.requestError, [])
    else
      match outcomes attempt with
      | .netErr =>
        if remaining = 0 then (.exhausted, [.post attempt])
        else
          let rest := dispatchAttempts reqOk outcomes (attempt + 1) remaining
          (rest.1, .post attempt :: .sleep (2 ^ attempt) :: rest.2)
      | .status c =>
        if c = 200 then (.delivered attempt, [.post attempt])
        else if isTerminalClientError c then (.terminal attempt c, [.post attempt])
        else if remaining = 0 then (.exhausted, [.post attempt])
        else
          let rest := dispatchAttempts reqOk outcomes (attempt + 1) remaining
          (rest.1, .post attempt :: .sleep (2 ^ attempt) :: rest.2)

/-- `enqueueFailedMessage`: append a fresh `QueuedMessage` whose tried set
is initialized with the analyzer that just exhausted its retries. -/
def enqueueFailedMessage (queue : List QueuedMessage) (logMessage : LogMessage)
    (failedAnalyzer : String) (now : Nat) : List QueuedMessage :=
  queue ++ [{ logMessage := logMessage, TriedAnalyzers := [failedAnalyzer],
              Attempts := 1, LastAttempt := now, QueuedAt := now }]

/-- How one call of `distributeLogMessage` ends. The first three
constructors are the states named by the spec; the last four are the
remaining return paths of the function (`noAnalyzer`: selected analyzer
has empty ID; `marshalError`: `json.Marshal` failed; `requestError`:
request creation failed; `panicked`: `selectAnalyzer` indexed an empty
slice). -/
inductive DispatchResult
  | delivered (attempt : Nat)
  | terminal (attempt : Nat) (code : Nat)
  | enqueued
  | noAnalyzer
  | marshalError
  | requestError
  | panicked
deriving DecidableEq

/-- The nondeterministic inputs of one `distributeLogMessage` call. -/
structure DispatchOracle where
  r01 : ℚ
  marshalOk : Bool
  reqOk : Bool
  outcomes : Nat → Outcome

/-- What one `distributeLogMessage` call produced: its classified return
path, the retry queue afterwards, and the trace of POSTs and sleeps. -/
structure DispatchOut where
  result : DispatchResult
  queue : List QueuedMessage
  trace : List Ev

/-- `distributeLogMessage`: select an analyzer, bail out on empty ID,
marshal, run the in-line retry loop, and enqueue when retries are
exhausted. -/
def distributeLogMessage (analyzers : List AnalyzerConfig) (o : DispatchOracle)
    (now : Nat) (msg : LogMessage) (queue : List QueuedMessage) : DispatchOut :=
  match selectAnalyzer analyzers o.r01 with
  | none => ⟨.panicked, queue, []⟩
  | some a =>
    if a.ID = "" then ⟨.noAnalyzer, queue, []⟩
    else if o.marshalOk = false then ⟨.marshalError, queue, []⟩
    else
      let res := dispatchAttempts o.reqOk o.outcomes 0 (a.RetryCount + 1)
      match res.1 with
      | .delivered k => ⟨.delivered k, queue, res.2⟩
      | .terminal k c => ⟨.terminal k c, queue, res.2⟩
      | .requestError => ⟨.requestError, queue, res.2⟩
      | .exhausted => ⟨.enqueued, enqueueFailedMessage queue msg a.ID now, res.2⟩

/-- The three states the spec allows after ingress ack: delivered with
`200 OK`, terminal non-retryable client error, or enqueued for retry. -/
def ThreeStates : DispatchResult → Prop
  | .delivered _ => True
  | .terminal _ _ => True
  | .enqueued => True
  | .noAnalyzer => False
  | .marshalError => False
  | .requestError => False
  | .panicked => False

/-- Outcome of the single delivery attempt made by `tryDeliverQueued`:
`json.Marshal` failure, request-creation failure, transport error, or a
response status. -/
inductive QDeliverOutcome
  | marshalErr
  | reqErr
  | netErr
  | status (code : Nat)
deriving DecidableEq

/-- `tryDeliverQueued`: one POST, no retry loop. First component: the
Boolean the function returns (`true` only for a `200 OK` response).
Second component: how many `client.Do` calls were made (marshal or
request-creation failure returns before any POST). -/
def tryDeliverQueued : QDeliverOutcome → Bool × Nat
  | .marshalErr => (false, 0)
  | .reqErr => (false, 0)
  | .netErr => (false, 1)
  | .status c => (decide (c = 200), 1)

/-- The Go map insertion `tried[id] = true` on the tried-analyzers set. -/
def insertTried (id : String) (tried : List String) : List String :=
  if id ∈ tried then tried else tried ++ [id]

/-- One pass of the `processQueueWorker` loop body over the queue
snapshot, building the new buffer. `rolls i` is the random draw and
`outs i` the delivery outcome for the entry at position `i`. An entry is
kept unchanged when the selector returns the empty-ID sentinel, dropped
on successful delivery, and otherwise kept with the chosen analyzer
marked tried, `Attempts` incremented and `LastAttempt` set to `now`. -/
def processQueueCycle (analyzers : List AnalyzerConfig) (rolls : Nat → ℚ)
    (outs : Nat → QDeliverOutcome) (now : Nat) :
    List QueuedMessage → Nat → List QueuedMessage
  | [], _ => []
  | qm :: rest, i =>
    let analyzer := selectAlternativeAnalyzer analyzers qm.TriedAnalyzers (rolls i)
    if analyzer.ID = "" then
      qm :: processQueueCycle analyzers rolls outs now rest (i + 1)
    else if (tryDeliverQueued (outs i)).1 then
      processQueueCycle analyzers rolls outs now rest (i + 1)
    else
      { qm with TriedAnalyzers := insertTried analyzer.ID qm.TriedAnalyzers,
                Attempts := qm.Attempts + 1,
                LastAttempt := now } :: processQueueCycle analyzers rolls outs now rest (i + 1)

/-- An HTTP response as seen by the emitter: status code and body. -/
structure HttpResponse where
  status : Nat
  body : String
deriving DecidableEq

/-- Handler-level events of `handleLogPacket`, in program order:
committing the response status, the synchronous call into
`distributeLogMessagesParallel`, and that function's internal
`wg.Wait()` (which runs on the handler's own call path). -/
inductive HEv
  | wroteStatus (code : Nat)
  | schedulerCall (msgCount : Nat)
  | schedulerWait
deriving DecidableEq

/-- Sequential threading of the per-message dispatches launched by
`distributeLogMessagesParallel` through the shared queue (each enqueue
appends under one mutex; this is one linearization of the parallel
execution). -/
def dispatchAll (analyzers : List AnalyzerConfig) (oracles : Nat → DispatchOracle)
    (now : Nat) : List LogMessage → Nat → List QueuedMessage → List QueuedMessage
  | [], _, queue => queue
  | m :: rest, i, queue =>
    dispatchAll analyzers oracles now rest (i + 1)
      ((distributeLogMessage analyzers (oracles i) now m queue).queue)

/-- `distributeLogMessagesParallel`: empty batches return immediately
(no `wg.Wait`); otherwise every message is dispatched and the function
blocks on `wg.Wait()` before returning. -/
def distributeLogMessagesParallel (analyzers : List AnalyzerConfig)
    (oracles : Nat → DispatchOracle) (now : Nat) (messages : List LogMessage)
    (queue : List QueuedMessage) : List QueuedMessage × List HEv :=
  if messages.isEmpty then (queue, [])
  else (dispatchAll analyzers oracles now messages 0 queue, [.schedulerWait])

/-- Result of one `handleLogPacket` call: the response written to the
emitter, the retry queue afterwards, and the handler's event trace. -/
structure HandlerOut where
  response : HttpResponse
  queue : List QueuedMessage
  events : List HEv
deriving DecidableEq

/-- `handleLogPacket`: reject non-POST with 405, reject undecodable JSON
with 400, otherwise write the 200 acknowledgement and then call
`distributeLogMessagesParallel` synchronously. `body` is the result of
JSON decoding (`none` = decode error). -/
def handleLogPacket (method : String) (body : Option LogPacket)
    (analyzers : List AnalyzerConfig) (oracles : Nat → DispatchOracle) (now : Nat)
    (queue : List QueuedMessage) : HandlerOut :=
  if method ≠ "POST" then
    ⟨⟨405, "Method not allowed"⟩, queue, [.wroteStatus 405]⟩
  else
    match body with
    | none => ⟨⟨400, "Invalid JSON"⟩, queue, [.wroteStatus 400]⟩
    | some packet =>
      let dispatched := distributeLogMessagesParallel analyzers oracles now packet.messages queue
      ⟨⟨200, "Log packet received successfully"⟩, dispatched.1,
        .wroteStatus 200 :: .schedulerCall packet.messages.length :: dispatched.2⟩

lemma dispatchAttempts_zero (reqOk : Bool) (outcomes : Nat → Outcome) (attempt : Nat) :
    dispatchAttempts reqOk outcomes attempt 0 = (.exhausted, []) := rfl

lemma dispatchAttempts_succ (reqOk : Bool) (outcomes : Nat → Outcome) (attempt r : Nat) :
    dispatchAttempts reqOk outcomes attempt (r + 1) =
      if reqOk = false then (.requestError, [])
      else
        match outcomes attempt with
        | .netErr =>
          if r = 0 then (.exhausted, [.post attempt])
          else
            let rest := dispatchAttempts reqOk outcomes (attempt + 1) r
            (rest.1, .post attempt :: .sleep (2 ^ attempt) :: rest.2)
        | .status c =>
          if c = 200 then (.delivered attempt, [.post attempt])
          else if isTerminalClientError c then (.terminal attempt c, [.post attempt])
          else if r = 0 then (.exhausted, [.post attempt])
          else
            let rest := dispatchAttempts reqOk outcomes (attempt + 1) r
            (rest.1, .post attempt :: .sleep (2 ^ attempt) :: rest.2) := by
  rw [dispatchAttempts]

/-- With request creation succeeding, the loop never reports a
request-creation failure. -/
lemma dispatchAttempts_ne_requestError (outcomes : Nat → Outcome) :
    ∀ (remaining attempt : Nat),
      (dispatchAttempts true outcomes attempt remaining).1 ≠ .requestError := by
  intro remaining
  induction remaining with
  | zero => intro attempt; simp [dispatchAttempts_zero]
  | succ r ih =>
    intro attempt
    rw [dispatchAttempts_succ]
    rcases houtc : outcomes attempt with _ | c
    · by_cases hr : r = 0
      · simp [houtc, hr]
      · simpa [houtc, hr] using ih (attempt + 1)
    · by_cases h200 : c = 200
      · simp [houtc, h200]
      · by_cases hterm : isTerminalClientError c = true
        · simp [houtc, h200, hterm]
        · by_cases hr : r = 0
          · simp [houtc, h200, hterm, hr]
          · simpa [houtc, h200, hterm, hr] using ih (attempt + 1)

/-- Trace shape of the retry loop: with request creation succeeding, the
trace is `post n, sleep 2^n` blocks for `j` consecutive attempts followed
by one final POST with no trailing sleep. -/
lemma dispatchAttempts_trace (outcomes : Nat → Outcome) :
    ∀ (remaining attempt : Nat), 0 < remaining →
      ∃ j, j < remaining ∧
        (dispatchAttempts true outcomes attempt remaining).2 =
          (List.range' attempt j).flatMap (fun n => [Ev.post n, Ev.sleep (2 ^ n)]) ++
            [Ev.post (attempt + j)] := by
  intro remaining
  induction remaining with
  | zero => intro attempt h; exact absurd h (by omega)
  | succ r ih =>
    intro attempt _
    rw [dispatchAttempts_succ]
    rcases houtc : outcomes attempt with _ | c
    · by_cases hr : r = 0
      · exact ⟨0, by omega, by simp [houtc, hr]⟩
      · obtain ⟨j, hj, htr⟩ := ih (attempt + 1) (by omega)
        refine ⟨j + 1, by omega, ?_⟩
        have hrange : List.range' attempt (j + 1) = attempt :: List.range' (attempt + 1) j := rfl
        simp [houtc, hr, htr, hrange, List.flatMap_cons]
        omega
    · by_cases h200 : c = 200
      · exact ⟨0, by omega, by simp [houtc, h200]⟩
      · by_cases hterm : isTerminalClientError c = true
        · exact ⟨0, by omega, by simp [houtc, h200, hterm]⟩
        · by_cases hr : r = 0
          · exact ⟨0, by omega, by simp [houtc, h200, hterm, hr]⟩
          · obtain ⟨j, hj, htr⟩ := ih (attempt + 1) (by omega)
            refine ⟨j + 1, by omega, ?_⟩
            have hrange : List.range' attempt (j + 1) = attempt :: List.range' (attempt + 1) j := rfl
            simp [houtc, h200, hterm, hr, htr, hrange, List.flatMap_cons]
            omega

/-- If the attempts strictly before `k` are all retryable and attempt `k`
(still within the loop bound) yields a terminal client error, the loop
stops at attempt `k` with result `terminal`, and the trace ends with that
POST: no further attempt and no further sleep happen. -/
lemma dispatchAttempts_terminalAt (outcomes : Nat → Outcome) (c : Nat)
    (hc : isTerminalClientError c = true) :
    ∀ (remaining attempt k : Nat), attempt ≤ k → k < attempt + remaining →
      outcomes k = .status c →
      (∀ j, attempt ≤ j → j < k → isRetryable (outcomes j) = true) →
      dispatchAttempts true outcomes attempt remaining =
        (.terminal k c,
         (List.range' attempt (k - attempt)).flatMap
             (fun n => [Ev.post n, Ev.sleep (2 ^ n)]) ++ [Ev.post k]) := by
  intro remaining
  induction remaining with
  | zero => intro attempt k h1 h2; omega
  | succ r ih =>
    intro attempt k h1 h2 hk hprev
    rw [dispatchAttempts_succ]
    rcases Nat.eq_or_lt_of_le h1 with heq | hlt
    · subst heq
      have hc200 : c ≠ 200 := by
        simp only [isTerminalClientError, decide_eq_true_eq] at hc
        omega
      simp [hk, hc200, hc]
    · have hretry : isRetryable (outcomes attempt) = true :=
        hprev attempt (le_refl _) hlt
      have hr0 : r ≠ 0 := by omega
      have hrec := ih (attempt + 1) k (by omega) (by omega) hk
        (fun j hj1 hj2 => hprev j (by omega) hj2)
      have hrange : List.range' attempt (k - attempt) =
          attempt :: List.range' (attempt + 1) (k - (attempt + 1)) := by
        have : k - attempt = (k - (attempt + 1)) + 1 := by omega
        rw [this]
        rfl
      rcases houtc : outcomes attempt with _ | c2
      · simp [hr0, hrec, hrange, List.flatMap_cons]
      · rw [houtc] at hretry
        simp only [isRetryable, Bool.and_eq_true, decide_eq_true_eq,
          Bool.not_eq_true'] at hretry
        simp [hretry.1, hretry.2, hr0, hrec, hrange, List.flatMap_cons]

/-- Each backoff block contributes exactly one POST. -/
lemma countP_isPost_blocks :
    ∀ (j s : Nat),
      (((List.range' s j).flatMap fun n => [Ev.post n, Ev.sleep (2 ^ n)]).countP Ev.isPost)
        = j := by
  intro j
  induction j with
  | zero => intro s; simp
  | succ j2 ih =>
    intro s
    have hrange : List.range' s (j2 + 1) = s :: List.range' (s + 1) j2 := rfl
    rw [hrange, List.flatMap_cons, List.countP_append, ih (s + 1)]
    simp [List.countP_cons, Ev.isPost]
    omega

/-- Under a successful selection with non-empty ID and successful
marshalling, `distributeLogMessage` runs the retry loop and its trace and
queue are determined by the loop result. -/
lemma distributeLogMessage_eq (analyzers : List AnalyzerConfig) (o : DispatchOracle)
    (now : Nat) (msg : LogMessage) (queue : List QueuedMessage) (a : AnalyzerConfig)
    (hsel : selectAnalyzer analyzers o.r01 = some a) (hid : a.ID ≠ "")
    (hm : o.marshalOk = true) :
    distributeLogMessage analyzers o now msg queue =
      (let res := dispatchAttempts o.reqOk o.outcomes 0 (a.RetryCount + 1)
       match res.1 with
       | .delivered k => ⟨.delivered k, queue, res.2⟩
       | .terminal k c => ⟨.terminal k c, queue, res.2⟩
       | .requestError => ⟨.requestError, queue, res.2⟩
       | .exhausted => ⟨.enqueued, enqueueFailedMessage queue msg a.ID now, res.2⟩) := by
  rw [distributeLogMessage, hsel]
  simp [hid, hm]

lemma mem_insertTried {s id : String} {tried : List String} :
    s ∈ insertTried id tried ↔ s = id ∨ s ∈ tried := by
  unfold insertTried
  split
  · rename_i h
    constructor
    · exact fun hs => Or.inr hs
    · rintro (rfl | hs)
      · exact h
      · exact hs
  · simp [or_comm]

lemma mem_of_mem_insertTried {s id : String} {tried : List String} (h : s ∈ tried) :
    s ∈ insertTried id tried := mem_insertTried.mpr (Or.inr h)

/-- What `selectAlternativeAnalyzer` returns is either the sentinel or a
configured analyzer that is not in the tried set. -/
lemma selectAlternativeAnalyzer_cases (analyzers : List AnalyzerConfig)
    (tried : List String) (r01 : ℚ) :
    selectAlternativeAnalyzer analyzers tried r01 = sentinelAnalyzer ∨
      (selectAlternativeAnalyzer analyzers tried r01 ∈ analyzers ∧
       (selectAlternativeAnalyzer analyzers tried r01).ID ∉ tried) := by
  rcases hf : analyzers.filter (fun a => !(tried.contains a.ID)) with _ | ⟨c, cs⟩
  · left
    unfold selectAlternativeAnalyzer
    rw [hf]
  · have hsub : ∀ x, x ∈ c :: cs → x ∈ analyzers ∧ x.ID ∉ tried := by
      intro x hx
      rw [← hf] at hx
      have hmf := List.mem_filter.mp hx
      refine ⟨hmf.1, ?_⟩
      simpa using hmf.2
    have hres : selectAlternativeAnalyzer analyzers tried r01 = c ∨
        ∃ a, walkWeighted (r01 * weightSum (c :: cs)) 0 (c :: cs) = some a ∧
          selectAlternativeAnalyzer analyzers tried r01 = a := by
      unfold selectAlternativeAnalyzer
      rw [hf]
      rcases hw : walkWeighted (r01 * weightSum (c :: cs)) 0 (c :: cs) with _ | a
      · left; simp [hw]
      · right; exact ⟨a, rfl, by simp [hw]⟩
    right
    rcases hres with h | ⟨a, hw, h⟩
    · rw [h]; exact hsub c (List.mem_cons_self _ _)
    · rw [h]; exact hsub a (walkWeighted_mem hw)

lemma processQueueCycle_nil (analyzers : List AnalyzerConfig) (rolls : Nat → ℚ)
    (outs : Nat → QDeliverOutcome) (now i : Nat) :
    processQueueCycle analyzers rolls outs now [] i = [] := rfl

lemma processQueueCycle_cons (analyzers : List AnalyzerConfig) (rolls : Nat → ℚ)
    (outs : Nat → QDeliverOutcome) (now i : Nat) (qm : QueuedMessage)
    (rest : List QueuedMessage) :
    processQueueCycle analyzers rolls outs now (qm :: rest) i =
      (let analyzer := selectAlternativeAnalyzer analyzers qm.TriedAnalyzers (rolls i)
       if analyzer.ID = "" then
         qm :: processQueueCycle analyzers rolls outs now rest (i + 1)
       else if (tryDeliverQueued (outs i)).1 then
         processQueueCycle analyzers rolls outs now rest (i + 1)
       else
         { qm with TriedAnalyzers := insertTried analyzer.ID qm.TriedAnalyzers,
                   Attempts := qm.Attempts + 1,
                   LastAttempt := now } :: processQueueCycle analyzers rolls outs now rest (i + 1)) := by
  rw [processQueueCycle]

/-- Every entry of the new buffer comes from an entry of the old one,
either untouched or with exactly the tried set, attempt counter and
last-attempt time updated (the analyzer id added is a configured one). -/
lemma processQueueCycle_mem (analyzers : List AnalyzerConfig) (rolls : Nat → ℚ)
    (outs : Nat → QDeliverOutcome) (now : Nat) :
    ∀ (queue : List QueuedMessage) (i : Nat) (q : QueuedMessage),
      q ∈ processQueueCycle analyzers rolls outs now queue i →
      ∃ qm, qm ∈ queue ∧
        (q = qm ∨
         ∃ aid, aid ∈ analyzers.map AnalyzerConfig.ID ∧ aid ∉ qm.TriedAnalyzers ∧
           q = { qm with TriedAnalyzers := insertTried aid qm.TriedAnalyzers,
                         Attempts := qm.Attempts + 1, LastAttempt := now }) := by
  intro queue
  induction queue with
  | nil => intro i q h; rw [processQueueCycle_nil] at h; cases h
  | cons qm rest ih =>
    intro i q h
    rw [processQueueCycle_cons] at h
    set a := selectAlternativeAnalyzer analyzers qm.TriedAnalyzers (rolls i) with ha
    by_cases hid : a.ID = ""
    · simp only [hid, if_pos rfl] at h
      rcases List.mem_cons.mp h with heq | hmem
      · exact ⟨qm, List.mem_cons_self _ _, Or.inl heq⟩
      · obtain ⟨qm2, hqm2, hrel⟩ := ih (i + 1) q hmem
        exact ⟨qm2, List.mem_cons_of_mem _ hqm2, hrel⟩
    · simp only [hid, if_neg, if_false] at h
      by_cases hdel : (tryDeliverQueued (outs i)).1 = true
      · simp only [hdel, if_true, if_pos] at h
        obtain ⟨qm2, hqm2, hrel⟩ := ih (i + 1) q h
        exact ⟨qm2, List.mem_cons_of_mem _ hqm2, hrel⟩
      · simp only [hdel, if_false, if_neg] at h
        rcases List.mem_cons.mp h with heq | hmem
        · refine ⟨qm, List.mem_cons_self _ _, Or.inr ⟨a.ID, ?_, ?_, heq⟩⟩
          · rcases selectAlternativeAnalyzer_cases analyzers qm.TriedAnalyzers (rolls i)
              with hs | ⟨hmem2, _⟩
            · exact absurd (by rw [ha, hs]; rfl) hid
            · exact List.mem_map.mpr ⟨a, by rw [ha]; exact hmem2, rfl⟩
          · rcases selectAlternativeAnalyzer_cases analyzers qm.TriedAnalyzers (rolls i)
              with hs | ⟨_, hnt⟩
            · exact absurd (by rw [ha, hs]; rfl) hid
            · rw [ha]; exact hnt
        · obtain ⟨qm2, hqm2, hrel⟩ := ih (i + 1) q hmem
          exact ⟨qm2, List.mem_cons_of_mem _ hqm2, hrel⟩

/-- Sample configured analyzers used as concrete witness inputs. -/
def analyzerA : AnalyzerConfig :=
  { ID := "a1", Weight := 1, Enabled := true,
    Endpoint := "http://analyzer1:8080/analyze", Timeout := 1000, RetryCount := 3 }

def analyzerB : AnalyzerConfig :=
  { ID := "a2", Weight := 2, Enabled := true,
    Endpoint := "http://analyzer2:8080/analyze", Timeout := 1000, RetryCount := 3 }

/-- An analyzer whose id is the empty string; `loadConfig` accepts it
(ids are not validated), yet the dispatcher treats its selection like the
no-analyzer sentinel. -/
def emptyIdAnalyzer : AnalyzerConfig :=
  { ID := "", Weight := 1, Enabled := true,
    Endpoint := "http://analyzer0:8080/analyze", Timeout := 1000, RetryCount := 0 }

def sampleMessage : LogMessage :=
  { id := "m1", timestamp := 0, level := "INFO", source := "svc",
    message := "hello", metadata := [] }

/-- C10: under the startup validation of `loadConfig` (at least one
analyzer, strictly positive total weight) and a draw `r01` in `[0, 1)`,
`selectAnalyzer` is total: the weighted walk itself succeeds (so the
`analyzers[0]` fallback never indexes an empty slice), and the returned
analyzer is one of the configured ones, so the empty-ID sentinel is never
produced on the initial-dispatch path. -/
theorem selectAnalyzer_total_mem (config config2 : DistributorConfig) (r01 : ℚ)
    (hload : loadConfig config = some config2) (h0 : 0 ≤ r01) (h1 : r01 < 1) :
    ∃ a, a ∈ config2.Analyzers ∧
      walkWeighted (r01 * weightSum config2.Analyzers) 0 config2.Analyzers = some a ∧
      selectAnalyzer config2.Analyzers r01 = some a := by
  rw [loadConfig] at hload
  by_cases hp : config.Port ≤ 0
  · rw [if_pos hp] at hload; cases hload
  · rw [if_neg hp] at hload
    by_cases hl : config.Analyzers.length = 0
    · rw [if_pos hl] at hload; cases hload
    · rw [if_neg hl] at hload
      by_cases hw : weightSum config.Analyzers ≤ 0
      · rw [if_pos hw] at hload; cases hload
      · rw [if_neg hw] at hload
        have hc2 : config2 = { config with TotalWeight := weightSum config.Analyzers } :=
          (Option.some.injEq _ _).mp hload.symm
        have hanalyzers : config2.Analyzers = config.Analyzers := by rw [hc2]
        have hne : config.Analyzers ≠ [] := by
          intro hnil; exact hl (by rw [hnil]; rfl)
        have hpos : 0 < weightSum config.Analyzers := lt_of_not_le hw
        have hrv : r01 * weightSum config.Analyzers ≤ 0 + weightSum config.Analyzers := by
          rw [zero_add]
          calc r01 * weightSum config.Analyzers
              ≤ 1 * weightSum config.Analyzers := by
                exact mul_le_mul_of_nonneg_right (le_of_lt h1) (le_of_lt hpos)
            _ = weightSum config.Analyzers := one_mul _
        obtain ⟨a, hmem, hwalk⟩ :=
          walkWeighted_total config.Analyzers 0 (r01 * weightSum config.Analyzers) hne hrv
        refine ⟨a, by rw [hanalyzers]; exact hmem, ?_, ?_⟩
        · rw [hanalyzers]; exact hwalk
        · rw [hanalyzers]
          simp [selectAnalyzer, hwalk]

/-- C10 witness: a concrete valid configuration on which the theorem
instantiates. -/
theorem selectAnalyzer_total_mem_witness :
    loadConfig { Analyzers := [analyzerA, analyzerB], Port := 8080,
                 TotalWeight := 0, NormalizeWeights := false } =
      some { Analyzers := [analyzerA, analyzerB], Port := 8080,
             TotalWeight := 3, NormalizeWeights := false } ∧
    (0 : ℚ) ≤ 0 ∧ (0 : ℚ) < 1 ∧
    ∃ a, a ∈ [analyzerA, analyzerB] ∧
      walkWeighted (0 * weightSum [analyzerA, analyzerB]) 0 [analyzerA, analyzerB] = some a ∧
      selectAnalyzer [analyzerA, analyzerB] 0 = some a := by
  have hload :
      loadConfig { Analyzers := [analyzerA, analyzerB], Port := 8080,
                   TotalWeight := 0, NormalizeWeights := false } =
        some { Analyzers := [analyzerA, analyzerB], Port := 8080,
               TotalWeight := 3, NormalizeWeights := false } := by
    norm_num [loadConfig, weightSum, analyzerA, analyzerB]
  refine ⟨hload, by norm_num, by norm_num, ?_⟩
  exact selectAnalyzer_total_mem
    { Analyzers := [analyzerA, analyzerB], Port := 8080,
      TotalWeight := 0, NormalizeWeights := false }
    { Analyzers := [analyzerA, analyzerB], Port := 8080,
      TotalWeight := 3, NormalizeWeights := false }
    0 hload (by norm_num) (by norm_num)

/-- C6: the weighted selector on a non-empty candidate set with draw
`r = r01 * total ∈ [0, total)` returns the first candidate (in order)
whose running cumulative weight reaches the draw — the walk itself
succeeds, so the fallback line is not used; on a single candidate it
returns that candidate unconditionally; on an empty candidate set it
returns the empty-ID sentinel and the queue cycle keeps the entry
unchanged. -/
theorem weighted_selector_cases (analyzers : List AnalyzerConfig) (tried : List String)
    (r01 : ℚ) :
    (∀ c cs, analyzers.filter (fun a => !(tried.contains a.ID)) = c :: cs →
       0 ≤ r01 → r01 < 1 → 0 < weightSum (c :: cs) →
       ∃ a, walkWeighted (r01 * weightSum (c :: cs)) 0 (c :: cs) = some a ∧
         selectAlternativeAnalyzer analyzers tried r01 = a) ∧
    (∀ a, analyzers.filter (fun a2 => !(tried.contains a2.ID)) = [a] →
       selectAlternativeAnalyzer analyzers tried r01 = a) ∧
    (analyzers.filter (fun a => !(tried.contains a.ID)) = [] →
       selectAlternativeAnalyzer analyzers tried r01 = sentinelAnalyzer ∧
       ∀ (rolls : Nat → ℚ) (outs : Nat → QDeliverOutcome) (now : Nat)
         (qm : QueuedMessage) (rest : List QueuedMessage) (i : Nat),
         qm.TriedAnalyzers = tried → rolls i = r01 →
         processQueueCycle analyzers rolls outs now (qm :: rest) i =
           qm :: processQueueCycle analyzers rolls outs now rest (i + 1)) := by
  refine ⟨?_, ?_, ?_⟩
  · intro c cs hf h0 h1 hpos
    have hrv : r01 * weightSum (c :: cs) ≤ 0 + weightSum (c :: cs) := by
      rw [zero_add]
      calc r01 * weightSum (c :: cs) ≤ 1 * weightSum (c :: cs) :=
            mul_le_mul_of_nonneg_right (le_of_lt h1) (le_of_lt hpos)
        _ = weightSum (c :: cs) := one_mul _
    obtain ⟨a, _, hwalk⟩ :=
      walkWeighted_total (c :: cs) 0 (r01 * weightSum (c :: cs)) (by simp) hrv
    refine ⟨a, hwalk, ?_⟩
    unfold selectAlternativeAnalyzer
    rw [hf]
    simp [hwalk]
  · intro a hf
    unfold selectAlternativeAnalyzer
    rw [hf]
    rcases hw : walkWeighted (r01 * weightSum [a]) 0 [a] with _ | b
    · simp [hw]
    · have hb : b ∈ [a] := walkWeighted_mem hw
      simp only [List.mem_singleton] at hb
      subst hb
      simp [hw]
  · intro hf
    have hsel : selectAlternativeAnalyzer analyzers tried r01 = sentinelAnalyzer := by
      unfold selectAlternativeAnalyzer
      rw [hf]
    refine ⟨hsel, ?_⟩
    intro rolls outs now qm rest i htried hroll
    rw [processQueueCycle_cons]
    have hsel2 : selectAlternativeAnalyzer analyzers qm.TriedAnalyzers (rolls i) =
        sentinelAnalyzer := by rw [htried, hroll]; exact hsel
    simp [hsel2, sentinelAnalyzer]

/-- C6 witness: with analyzers `a1, a2` and tried set containing only
`a1`, the single remaining candidate `a2` is returned; with both tried,
the sentinel is returned. -/
theorem weighted_selector_cases_witness :
    ([analyzerA, analyzerB].filter
        (fun a2 => !((["a1"] : List String).contains a2.ID)) = [analyzerB]) ∧
    selectAlternativeAnalyzer [analyzerA, analyzerB] ["a1"] 0 = analyzerB := by
  refine ⟨by decide, ?_⟩
  exact (weighted_selector_cases [analyzerA, analyzerB] ["a1"] 0).2.1 analyzerB (by decide)

/-- The empty-selector return path of `distributeLogMessage`. -/
lemma distributeLogMessage_noAnalyzer (analyzers : List AnalyzerConfig)
    (o : DispatchOracle) (now : Nat) (msg : LogMessage) (queue : List QueuedMessage)
    (a : AnalyzerConfig) (hsel : selectAnalyzer analyzers o.r01 = some a)
    (hid : a.ID = "") :
    distributeLogMessage analyzers o now msg queue = ⟨.noAnalyzer, queue, []⟩ := by
  rw [distributeLogMessage, hsel]
  simp [hid]

/-- The marshal-failure return path of `distributeLogMessage`. -/
lemma distributeLogMessage_marshalError (analyzers : List AnalyzerConfig)
    (o : DispatchOracle) (now : Nat) (msg : LogMessage) (queue : List QueuedMessage)
    (a : AnalyzerConfig) (hsel : selectAnalyzer analyzers o.r01 = some a)
    (hid : a.ID ≠ "") (hm : o.marshalOk = false) :
    distributeLogMessage analyzers o now msg queue = ⟨.marshalError, queue, []⟩ := by
  rw [distributeLogMessage, hsel]
  simp [hid, hm]

/-- The request-creation-failure return path of `distributeLogMessage`. -/
lemma distributeLogMessage_requestError (analyzers : List AnalyzerConfig)
    (o : DispatchOracle) (now : Nat) (msg : LogMessage) (queue : List QueuedMessage)
    (a : AnalyzerConfig) (hsel : selectAnalyzer analyzers o.r01 = some a)
    (hid : a.ID ≠ "") (hm : o.marshalOk = true) (hr : o.reqOk = false) :
    distributeLogMessage analyzers o now msg queue = ⟨.requestError, queue, []⟩ := by
  have heq := distributeLogMessage_eq analyzers o now msg queue a hsel hid hm
  rw [heq, hr]
  have hreq : dispatchAttempts false o.outcomes 0 (a.RetryCount + 1) =
      (.requestError, []) := by
    rw [dispatchAttempts_succ]; simp
  simp [hreq]

/-- C1 counterexample: a configuration with a single analyzer whose id is
the empty string passes `loadConfig` validation, yet a message dispatched
under it ends in none of the three allowed states — `distributeLogMessage`
returns on its empty-selector path and the message is dropped without
being enqueued (the queue stays empty). -/
theorem dispatch_drop_counterexample :
    loadConfig { Analyzers := [emptyIdAnalyzer], Port := 8080,
                 TotalWeight := 0, NormalizeWeights := false } =
      some { Analyzers := [emptyIdAnalyzer], Port := 8080,
             TotalWeight := 1, NormalizeWeights := false } ∧
    ¬ ThreeStates (distributeLogMessage [emptyIdAnalyzer]
        { r01 := 0, marshalOk := true, reqOk := true, outcomes := fun _ => .status 200 }
        0 sampleMessage []).result ∧
    (distributeLogMessage [emptyIdAnalyzer]
        { r01 := 0, marshalOk := true, reqOk := true, outcomes := fun _ => .status 200 }
        0 sampleMessage []).queue = [] := by
  have hsel : selectAnalyzer [emptyIdAnalyzer] 0 = some emptyIdAnalyzer := by
    norm_num [selectAnalyzer, walkWeighted, weightSum, emptyIdAnalyzer]
  have hrun : distributeLogMessage [emptyIdAnalyzer]
      { r01 := 0, marshalOk := true, reqOk := true, outcomes := fun _ => .status 200 }
      0 sampleMessage [] = ⟨.noAnalyzer, [], []⟩ :=
    distributeLogMessage_noAnalyzer [emptyIdAnalyzer]
      { r01 := 0, marshalOk := true, reqOk := true, outcomes := fun _ => .status 200 }
      0 sampleMessage [] emptyIdAnalyzer hsel rfl
  refine ⟨by norm_num [loadConfig, weightSum, emptyIdAnalyzer], ?_, ?_⟩
  · rw [hrun]; simp [ThreeStates]
  · rw [hrun]

/-- C1 (amended): when the selected analyzer has a non-empty id and both
JSON marshalling and request creation succeed, every dispatch ends in
exactly one of the three states — delivered, terminal client error, or
enqueued — and the queue gains exactly the failed message in the enqueued
case and is unchanged otherwise. On the empty-selector, marshal-failure
and request-creation-failure paths the message is instead dropped with
the queue unchanged. -/
theorem dispatch_three_states (analyzers : List AnalyzerConfig) (o : DispatchOracle)
    (now : Nat) (msg : LogMessage) (queue : List QueuedMessage) (a : AnalyzerConfig)
    (hsel : selectAnalyzer analyzers o.r01 = some a) :
    (a.ID ≠ "" → o.marshalOk = true → o.reqOk = true →
       ThreeStates (distributeLogMessage analyzers o now msg queue).result ∧
       ((distributeLogMessage analyzers o now msg queue).result = .enqueued →
         (distributeLogMessage analyzers o now msg queue).queue =
           enqueueFailedMessage queue msg a.ID now) ∧
       ((distributeLogMessage analyzers o now msg queue).result ≠ .enqueued →
         (distributeLogMessage analyzers o now msg queue).queue = queue)) ∧
    (a.ID = "" →
       distributeLogMessage analyzers o now msg queue = ⟨.noAnalyzer, queue, []⟩) ∧
    (a.ID ≠ "" → o.marshalOk = false →
       distributeLogMessage analyzers o now msg queue = ⟨.marshalError, queue, []⟩) ∧
    (a.ID ≠ "" → o.marshalOk = true → o.reqOk = false →
       distributeLogMessage analyzers o now msg queue = ⟨.requestError, queue, []⟩) := by
  refine ⟨?_, ?_, ?_, ?_⟩
  · intro hid hm hr
    have heq := distributeLogMessage_eq analyzers o now msg queue a hsel hid hm
    rw [heq]
    rcases hres : (dispatchAttempts o.reqOk o.outcomes 0 (a.RetryCount + 1)).1
      with k | ⟨k, c⟩ | _ | _
    · simp [hres, ThreeStates]
    · simp [hres, ThreeStates]
    · simp [hres, ThreeStates]
    · rw [hr] at hres
      exact absurd hres (dispatchAttempts_ne_requestError o.outcomes (a.RetryCount + 1) 0)
  · intro hid
    exact distributeLogMessage_noAnalyzer analyzers o now msg queue a hsel hid
  · intro hid hm
    exact distributeLogMessage_marshalError analyzers o now msg queue a hsel hid hm
  · intro hid hm hr
    exact distributeLogMessage_requestError analyzers o now msg queue a hsel hid hm hr

/-- C1 witness: a healthy single-analyzer run in which the first attempt
returns `200 OK`, landing in the delivered state. -/
theorem dispatch_three_states_witness :
    selectAnalyzer [analyzerA] 0 = some analyzerA ∧
    ThreeStates (distributeLogMessage [analyzerA]
      { r01 := 0, marshalOk := true, reqOk := true, outcomes := fun _ => .status 200 }
      5 sampleMessage []).result := by
  have hsel : selectAnalyzer [analyzerA] 0 = some analyzerA := by
    norm_num [selectAnalyzer, walkWeighted, weightSum, analyzerA]
  exact ⟨hsel,
    ((dispatch_three_states [analyzerA]
        { r01 := 0, marshalOk := true, reqOk := true, outcomes := fun _ => .status 200 }
        5 sampleMessage [] analyzerA hsel).1 (by decide) rfl rfl).1⟩

/-- C3: a response with a 4xx status other than 429 is terminal — when
attempt `k` of the in-line retry loop receives such a status (all earlier
attempts having been retryable), `distributeLogMessage` returns
immediately with a terminal result: the trace ends at `post k` (no
further POST and no further sleep) and the retry queue is left unchanged
(no enqueue). -/
theorem dispatch_terminal_client_error (analyzers : List AnalyzerConfig)
    (o : DispatchOracle) (now : Nat) (msg : LogMessage) (queue : List QueuedMessage)
    (a : AnalyzerConfig) (k c : Nat)
    (hsel : selectAnalyzer analyzers o.r01 = some a) (hid : a.ID ≠ "")
    (hm : o.marshalOk = true) (hr : o.reqOk = true)
    (hk : k ≤ a.RetryCount) (ho : o.outcomes k = .status c)
    (hc : isTerminalClientError c = true)
    (hprev : ∀ j, j < k → isRetryable (o.outcomes j) = true) :
    distributeLogMessage analyzers o now msg queue =
      ⟨.terminal k c, queue,
       (List.range' 0 k).flatMap (fun n => [Ev.post n, Ev.sleep (2 ^ n)]) ++
         [Ev.post k]⟩ := by
  have heq := distributeLogMessage_eq analyzers o now msg queue a hsel hid hm
  have hloop := dispatchAttempts_terminalAt o.outcomes c hc (a.RetryCount + 1) 0 k
    (by omega) (by omega) ho (fun j hj1 hj2 => hprev j hj2)
  rw [heq, hr, hloop]
  simp

/-- C3 witness: a single `422` on the first attempt with retries
configured — the dispatcher stops at once and nothing is enqueued. -/
theorem dispatch_terminal_client_error_witness :
    selectAnalyzer [analyzerB] 0 = some analyzerB ∧
    isTerminalClientError 422 = true ∧
    distributeLogMessage [analyzerB]
      { r01 := 0, marshalOk := true, reqOk := true, outcomes := fun _ => .status 422 }
      7 sampleMessage [] = ⟨.terminal 0 422, [], [Ev.post 0]⟩ := by
  have hsel : selectAnalyzer [analyzerB] 0 = some analyzerB := by
    norm_num [selectAnalyzer, walkWeighted, weightSum, analyzerB]
  refine ⟨hsel, by decide, ?_⟩
  simpa using dispatch_terminal_client_error [analyzerB]
    { r01 := 0, marshalOk := true, reqOk := true, outcomes := fun _ => .status 422 }
    7 sampleMessage [] analyzerB 0 422 hsel (by decide) rfl rfl (by decide) rfl
    (by decide) (fun j hj => absurd hj (Nat.not_lt_zero j))

/-- C7: for one message and one selected sink (marshalling and request
creation succeeding), the dispatcher makes `k + 1 ≤ retry_count + 1` POST
attempts for some `k`, and the trace is exactly `post 0, sleep 2^0,
post 1, sleep 2^1, …, post k`: between consecutive attempts `n` and
`n + 1` it waits exactly `2^n` seconds, and no wait follows the final
attempt. -/
theorem dispatch_backoff_schedule (analyzers : List AnalyzerConfig)
    (o : DispatchOracle) (now : Nat) (msg : LogMessage) (queue : List QueuedMessage)
    (a : AnalyzerConfig)
    (hsel : selectAnalyzer analyzers o.r01 = some a) (hid : a.ID ≠ "")
    (hm : o.marshalOk = true) (hr : o.reqOk = true) :
    ∃ k, k ≤ a.RetryCount ∧
      (distributeLogMessage analyzers o now msg queue).trace =
        (List.range' 0 k).flatMap (fun n => [Ev.post n, Ev.sleep (2 ^ n)]) ++
          [Ev.post k] ∧
      ((distributeLogMessage analyzers o now msg queue).trace.countP Ev.isPost)
        = k + 1 := by
  have heq := distributeLogMessage_eq analyzers o now msg queue a hsel hid hm
  have htrace : (distributeLogMessage analyzers o now msg queue).trace =
      (dispatchAttempts o.reqOk o.outcomes 0 (a.RetryCount + 1)).2 := by
    rw [heq]
    rcases hres : (dispatchAttempts o.reqOk o.outcomes 0 (a.RetryCount + 1)).1
      with k2 | ⟨k2, c2⟩ | _ | _ <;> simp [hres]
  obtain ⟨j, hj, htr⟩ := dispatchAttempts_trace o.outcomes (a.RetryCount + 1) 0
    (by omega)
  refine ⟨j, by omega, ?_, ?_⟩
  · rw [htrace, hr, htr]
    simp
  · rw [htrace, hr, htr, List.countP_append, countP_isPost_blocks]
    simp [List.countP_cons, Ev.isPost]

/-- C7 witness: a `503` followed by `200` — the backoff schedule theorem
instantiates on a concrete run. -/
theorem dispatch_backoff_schedule_witness :
    selectAnalyzer [analyzerA] 0 = some analyzerA ∧
    ∃ k, k ≤ analyzerA.RetryCount ∧
      (distributeLogMessage [analyzerA]
        { r01 := 0, marshalOk := true, reqOk := true,
          outcomes := fun n => if n = 0 then .status 503 else .status 200 }
        3 sampleMessage []).trace =
        (List.range' 0 k).flatMap (fun n => [Ev.post n, Ev.sleep (2 ^ n)]) ++
          [Ev.post k] ∧
      ((distributeLogMessage [analyzerA]
        { r01 := 0, marshalOk := true, reqOk := true,
          outcomes := fun n => if n = 0 then .status 503 else .status 200 }
        3 sampleMessage []).trace.countP Ev.isPost) = k + 1 := by
  have hsel : selectAnalyzer [analyzerA] 0 = some analyzerA := by
    norm_num [selectAnalyzer, walkWeighted, weightSum, analyzerA]
  exact ⟨hsel, dispatch_backoff_schedule [analyzerA]
    { r01 := 0, marshalOk := true, reqOk := true,
      outcomes := fun n => if n = 0 then .status 503 else .status 200 }
    3 sampleMessage [] analyzerA hsel (by decide) rfl rfl⟩

def sampleQueued : QueuedMessage :=
  { logMessage := sampleMessage, TriedAnalyzers := ["a1"], Attempts := 1,
    LastAttempt := 0, QueuedAt := 0 }

/-- With `a1` tried, the selector picks the only remaining candidate
`a2`. -/
lemma select_a2_of_tried_a1 :
    selectAlternativeAnalyzer [analyzerA, analyzerB] ["a1"] 0 = analyzerB := by
  have hfil : [analyzerA, analyzerB].filter
      (fun a2 => !((["a1"] : List String).contains a2.ID)) = [analyzerB] := by decide
  have hw : walkWeighted 0 0 [analyzerB] = some analyzerB := by
    norm_num [walkWeighted, weightSum, analyzerB]
  unfold selectAlternativeAnalyzer
  rw [hfil]
  simp [hw]

/-- C2: in a queue-worker cycle, the head entry is kept unchanged when
the selector returns the empty-ID sentinel; otherwise one delivery
attempt decides it — dropped on `200 OK`, else kept with the chosen sink
inserted into the tried set, the attempt counter incremented and the
last-attempt time set to now. `tryDeliverQueued` succeeds exactly on a
`200` response and performs at most one POST (exactly one whenever it
gets past marshalling and request creation). -/
theorem queue_cycle_step (analyzers : List AnalyzerConfig) (rolls : Nat → ℚ)
    (outs : Nat → QDeliverOutcome) (now : Nat) (qm : QueuedMessage)
    (rest : List QueuedMessage) (i : Nat) :
    ((selectAlternativeAnalyzer analyzers qm.TriedAnalyzers (rolls i)).ID = "" →
       processQueueCycle analyzers rolls outs now (qm :: rest) i =
         qm :: processQueueCycle analyzers rolls outs now rest (i + 1)) ∧
    ((selectAlternativeAnalyzer analyzers qm.TriedAnalyzers (rolls i)).ID ≠ "" →
       (tryDeliverQueued (outs i)).1 = true →
       processQueueCycle analyzers rolls outs now (qm :: rest) i =
         processQueueCycle analyzers rolls outs now rest (i + 1)) ∧
    (∀ aID, (selectAlternativeAnalyzer analyzers qm.TriedAnalyzers (rolls i)).ID = aID →
       aID ≠ "" → (tryDeliverQueued (outs i)).1 = false →
       processQueueCycle analyzers rolls outs now (qm :: rest) i =
         { qm with TriedAnalyzers := insertTried aID qm.TriedAnalyzers,
                   Attempts := qm.Attempts + 1,
                   LastAttempt := now }
           :: processQueueCycle analyzers rolls outs now rest (i + 1)) ∧
    ((tryDeliverQueued (outs i)).1 = true ↔ outs i = .status 200) ∧
    ((tryDeliverQueued (outs i)).2 ≤ 1) ∧
    (outs i ≠ .marshalErr → outs i ≠ .reqErr → (tryDeliverQueued (outs i)).2 = 1) := by
  refine ⟨?_, ?_, ?_, ?_, ?_, ?_⟩
  · intro hid
    rw [processQueueCycle_cons]
    simp [hid]
  · intro hid hdel
    rw [processQueueCycle_cons]
    simp [hid, hdel]
  · intro aID haID hid hdel
    subst haID
    rw [processQueueCycle_cons]
    simp [hid, hdel]
  · rcases ho : outs i with _ | _ | _ | c <;> simp [tryDeliverQueued]
  · rcases ho : outs i with _ | _ | _ | c <;> simp [tryDeliverQueued]
  · intro h1 h2
    rcases ho : outs i with _ | _ | _ | c
    · exact absurd ho h1
    · exact absurd ho h2
    · simp [tryDeliverQueued]
    · simp [tryDeliverQueued]

/-- C2 witness: with `a1` already tried, the selector picks `a2`, the
single delivery attempt gets `200 OK`, and the entry is dropped from the
queue. -/
theorem queue_cycle_step_witness :
    (selectAlternativeAnalyzer [analyzerA, analyzerB] sampleQueued.TriedAnalyzers 0).ID
      ≠ "" ∧
    (tryDeliverQueued (.status 200)).1 = true ∧
    processQueueCycle [analyzerA, analyzerB] (fun _ => 0) (fun _ => .status 200) 9
      [sampleQueued] 0 = [] := by
  have hsel : selectAlternativeAnalyzer [analyzerA, analyzerB]
      sampleQueued.TriedAnalyzers 0 = analyzerB := select_a2_of_tried_a1
  have hid : (selectAlternativeAnalyzer [analyzerA, analyzerB]
      sampleQueued.TriedAnalyzers 0).ID ≠ "" := by
    rw [hsel]; decide
  refine ⟨hid, rfl, ?_⟩
  have hstep := (queue_cycle_step [analyzerA, analyzerB] (fun _ => 0)
    (fun _ => .status 200) 9 sampleQueued [] 0).2.1 hid rfl
  rw [hstep, processQueueCycle_nil]

/-- C5: across one queue cycle the tried set of every surviving entry
only grows, any id added is that of a configured sink, and whenever the
selector actually picks a sink for a delivery attempt, that sink is
configured and not in the entry's tried set. -/
theorem tried_sinks_invariant (analyzers : List AnalyzerConfig) (rolls : Nat → ℚ)
    (outs : Nat → QDeliverOutcome) (now : Nat) :
    (∀ (queue : List QueuedMessage) (i : Nat) (q : QueuedMessage),
       q ∈ processQueueCycle analyzers rolls outs now queue i →
       ∃ qm, qm ∈ queue ∧
         (∀ s, s ∈ qm.TriedAnalyzers → s ∈ q.TriedAnalyzers) ∧
         (∀ s, s ∈ q.TriedAnalyzers →
            s ∈ qm.TriedAnalyzers ∨ s ∈ analyzers.map AnalyzerConfig.ID)) ∧
    (∀ (tried : List String) (r01 : ℚ),
       (selectAlternativeAnalyzer analyzers tried r01).ID ≠ "" →
       selectAlternativeAnalyzer analyzers tried r01 ∈ analyzers ∧
       (selectAlternativeAnalyzer analyzers tried r01).ID ∉ tried) := by
  constructor
  · intro queue i q hq
    obtain ⟨qm, hmem, hrel⟩ := processQueueCycle_mem analyzers rolls outs now queue i q hq
    rcases hrel with heq | ⟨aid, haid, hnot, heq⟩
    · subst heq
      exact ⟨q, hmem, fun s hs => hs, fun s hs => Or.inl hs⟩
    · refine ⟨qm, hmem, ?_, ?_⟩
      · intro s hs
        rw [heq]
        exact mem_of_mem_insertTried hs
      · intro s hs
        rw [heq] at hs
        rcases mem_insertTried.mp hs with heq2 | hs2
        · rw [heq2]; exact Or.inr haid
        · exact Or.inl hs2
  · intro tried r01 hid
    rcases selectAlternativeAnalyzer_cases analyzers tried r01 with hs | h
    · rw [hs] at hid; exact absurd rfl hid
    · exact h

/-- C5 witness: with tried set containing only `a1`, the selector picks a
configured, untried sink. -/
theorem tried_sinks_invariant_witness :
    (selectAlternativeAnalyzer [analyzerA, analyzerB] ["a1"] 0).ID ≠ "" ∧
    selectAlternativeAnalyzer [analyzerA, analyzerB] ["a1"] 0 ∈ [analyzerA, analyzerB] ∧
    (selectAlternativeAnalyzer [analyzerA, analyzerB] ["a1"] 0).ID ∉ (["a1"] : List String) := by
  have hid : (selectAlternativeAnalyzer [analyzerA, analyzerB] ["a1"] 0).ID ≠ "" := by
    rw [select_a2_of_tried_a1]; decide
  exact ⟨hid, (tried_sinks_invariant [analyzerA, analyzerB] (fun _ => 0)
    (fun _ => .status 200) 0).2 ["a1"] 0 hid⟩

/-- C9: one queue cycle never changes an entry's payload or its
`queued_at`; a surviving entry is either untouched or updated in exactly
the tried set, the attempt counter and the last-attempt time. -/
theorem queue_cycle_frame (analyzers : List AnalyzerConfig) (rolls : Nat → ℚ)
    (outs : Nat → QDeliverOutcome) (now : Nat) :
    ∀ (queue : List QueuedMessage) (i : Nat) (q : QueuedMessage),
      q ∈ processQueueCycle analyzers rolls outs now queue i →
      ∃ qm, qm ∈ queue ∧ q.logMessage = qm.logMessage ∧ q.QueuedAt = qm.QueuedAt ∧
        (q = qm ∨
         ∃ aid, q = { qm with TriedAnalyzers := insertTried aid qm.TriedAnalyzers,
                              Attempts := qm.Attempts + 1,
                              LastAttempt := now }) := by
  intro queue i q hq
  obtain ⟨qm, hmem, hrel⟩ := processQueueCycle_mem analyzers rolls outs now queue i q hq
  rcases hrel with heq | ⟨aid, haid, hnot, heq⟩
  · subst heq
    exact ⟨q, hmem, rfl, rfl, Or.inl rfl⟩
  · refine ⟨qm, hmem, ?_, ?_, Or.inr ⟨aid, heq⟩⟩
    · rw [heq]
    · rw [heq]

/-- A concrete failed queue cycle: the sole entry gets `a2` marked tried,
its counter bumped and its last-attempt time set, and nothing else. -/
lemma sample_cycle_netErr :
    processQueueCycle [analyzerA, analyzerB] (fun _ => 0)
      (fun _ => QDeliverOutcome.netErr) 9 [sampleQueued] 0 =
      [{ sampleQueued with TriedAnalyzers := insertTried "a2" sampleQueued.TriedAnalyzers,
                           Attempts := sampleQueued.Attempts + 1,
                           LastAttempt := 9 }] := by
  have hsel : selectAlternativeAnalyzer [analyzerA, analyzerB]
      sampleQueued.TriedAnalyzers 0 = analyzerB := select_a2_of_tried_a1
  rw [processQueueCycle_cons]
  simp only [hsel]
  rw [processQueueCycle_nil]
  simp [tryDeliverQueued, analyzerB]

/-- C9 witness: the frame theorem instantiated on that concrete cycle. -/
theorem queue_cycle_frame_witness :
    ({ sampleQueued with TriedAnalyzers := insertTried "a2" sampleQueued.TriedAnalyzers,
                         Attempts := sampleQueued.Attempts + 1,
                         LastAttempt := 9 } ∈
       processQueueCycle [analyzerA, analyzerB] (fun _ => 0)
         (fun _ => QDeliverOutcome.netErr) 9 [sampleQueued] 0) ∧
    ∃ qm, qm ∈ [sampleQueued] ∧
      ({ sampleQueued with TriedAnalyzers := insertTried "a2" sampleQueued.TriedAnalyzers,
                           Attempts := sampleQueued.Attempts + 1,
                           LastAttempt := 9 } : QueuedMessage).logMessage = qm.logMessage ∧
      ({ sampleQueued with TriedAnalyzers := insertTried "a2" sampleQueued.TriedAnalyzers,
                           Attempts := sampleQueued.Attempts + 1,
                           LastAttempt := 9 } : QueuedMessage).QueuedAt = qm.QueuedAt ∧
      (({ sampleQueued with TriedAnalyzers := insertTried "a2" sampleQueued.TriedAnalyzers,
                            Attempts := sampleQueued.Attempts + 1,
                            LastAttempt := 9 } : QueuedMessage) = qm ∨
       ∃ aid, ({ sampleQueued with
                   TriedAnalyzers := insertTried "a2" sampleQueued.TriedAnalyzers,
                   Attempts := sampleQueued.Attempts + 1,
                   LastAttempt := 9 } : QueuedMessage) =
         { qm with TriedAnalyzers := insertTried aid qm.TriedAnalyzers,
                   Attempts := qm.Attempts + 1,
                   LastAttempt := 9 }) := by
  have hmem : ({ sampleQueued with
      TriedAnalyzers := insertTried "a2" sampleQueued.TriedAnalyzers,
      Attempts := sampleQueued.Attempts + 1,
      LastAttempt := 9 } : QueuedMessage) ∈
      processQueueCycle [analyzerA, analyzerB] (fun _ => 0)
        (fun _ => QDeliverOutcome.netErr) 9 [sampleQueued] 0 := by
    rw [sample_cycle_netErr]
    exact List.mem_singleton.mpr rfl
  exact ⟨hmem, queue_cycle_frame [analyzerA, analyzerB] (fun _ => 0)
    (fun _ => QDeliverOutcome.netErr) 9 [sampleQueued] 0 _ hmem⟩

def samplePacket : LogPacket :=
  { packetId := "p1", agentId := "agent1", timestamp := 0,
    messages := [sampleMessage] }

/-- C4 counterexample: on a one-message packet the handler's own
execution contains the scheduler's internal `wg.Wait()` —
`handleLogPacket` calls `distributeLogMessagesParallel` synchronously
after writing the acknowledgement, so it does block on the scheduler's
internal synchronization (and thereby on sink I/O and backoff sleeps of
the dispatch tasks) before returning. -/
theorem handler_blocks_counterexample :
    HEv.schedulerWait ∈ (handleLogPacket "POST" (some samplePacket) [analyzerA]
      (fun _ => { r01 := 0, marshalOk := true, reqOk := true,
                  outcomes := fun _ => .status 200 })
      0 []).events := by
  simp [handleLogPacket, distributeLogMessagesParallel, samplePacket]

/-- C4 (amended): the handler writes the 200 acknowledgement before any
scheduler activity — the ack event strictly precedes the scheduler call
in its event trace — but it then invokes the fan-out scheduler
synchronously, and for a non-empty batch it blocks on the scheduler's
internal wait before returning; only for an empty batch does the
scheduler return without waiting. -/
theorem handler_ack_then_sync_dispatch (p : LogPacket) (analyzers : List AnalyzerConfig)
    (oracles : Nat → DispatchOracle) (now : Nat) (queue : List QueuedMessage) :
    (handleLogPacket "POST" (some p) analyzers oracles now queue).events =
      [HEv.wroteStatus 200, HEv.schedulerCall p.messages.length] ++
        (if p.messages.isEmpty then [] else [HEv.schedulerWait]) ∧
    (handleLogPacket "POST" (some p) analyzers oracles now queue).response =
      ⟨200, "Log packet received successfully"⟩ := by
  by_cases hmt : p.messages.isEmpty
  · exact ⟨by simp [handleLogPacket, distributeLogMessagesParallel, hmt],
           by simp [handleLogPacket, distributeLogMessagesParallel, hmt]⟩
  · exact ⟨by simp [handleLogPacket, distributeLogMessagesParallel, hmt],
           by simp [handleLogPacket, distributeLogMessagesParallel, hmt]⟩

/-- C8: the ingress handler answers 405 to every non-POST request, 400
with no state change and no dispatch on a JSON decode error, and 200 with
the fixed acknowledgement body whenever decoding succeeds — for every
choice of downstream outcomes. -/
theorem handler_response_contract (method : String) (body : Option LogPacket)
    (analyzers : List AnalyzerConfig) (oracles : Nat → DispatchOracle) (now : Nat)
    (queue : List QueuedMessage) :
    (method ≠ "POST" →
       handleLogPacket method body analyzers oracles now queue =
         ⟨⟨405, "Method not allowed"⟩, queue, [HEv.wroteStatus 405]⟩) ∧
    (handleLogPacket "POST" none analyzers oracles now queue =
       ⟨⟨400, "Invalid JSON"⟩, queue, [HEv.wroteStatus 400]⟩) ∧
    (∀ p, (handleLogPacket "POST" (some p) analyzers oracles now queue).response =
       ⟨200, "Log packet received successfully"⟩) := by
  refine ⟨?_, ?_, ?_⟩
  · intro hm
    simp [handleLogPacket, hm]
  · simp [handleLogPacket]
  · intro p
    by_cases hmt : p.messages.isEmpty <;>
      simp [handleLogPacket, distributeLogMessagesParallel, hmt]

/-- C8 witness: a GET request is rejected with 405 and leaves the queue
untouched. -/
theorem handler_response_contract_witness :
    ("GET" : String) ≠ "POST" ∧
    handleLogPacket "GET" (some samplePacket) [analyzerA]
      (fun _ => { r01 := 0, marshalOk := true, reqOk := true,
                  outcomes := fun _ => .status 200 })
      0 [] = ⟨⟨405, "Method not allowed"⟩, [], [HEv.wroteStatus 405]⟩ := by
  refine ⟨by decide, ?_⟩
  exact (handler_response_contract "GET" (some samplePacket) [analyzerA]
    (fun _ => { r01 := 0, marshalOk := true, reqOk := true,
                outcomes := fun _ => .status 200 })
    0 []).1 (by decide)
